import Mathlib

/-!
Verification of the pets CRUD service (`src/routes/pets.ts`).

The repository is thin HTTP routing glue over an embedded document store
(an external collaborator).  We embed:

* JSON record bodies as association lists of string fields (`Doc`);
* the document store collaborator, modelled from the spec (sections 2, 3
  and the glossary): insert assigns a fresh store-generated identifier,
  update applies a merge-patch keyed by id with the identifier immutable,
  remove deletes the matched record;
* the five route handlers of `pets.ts`, transliterated branch by branch,
  with store faults made explicit: each store call in a handler takes an
  optional injected fault message.  A fault inside a try/catch block turns
  into a 500 response carrying the message; a fault on an unguarded path
  escapes the handler (`Except.error`).
-/

/-- A JSON-like record: an association list from field names to values.
Lookup takes the first matching entry, as in a parsed JSON object. -/
abbrev Doc := List (String × String)

/-- First value bound to field `k` in `d`, if any. -/
def getField (d : Doc) (k : String) : Option String :=
  (d.find? (fun p => p.1 == k)).map (fun p => p.2)

/-- The store-assigned identifier field of a record (`_id` in the source). -/
def docId (d : Doc) : Option String :=
  getField d "_id"

/-- Merge-patch (spec glossary): every field named in `patch` is
overwritten with the patch value, every other field of `d` is kept, and
fields of `patch` absent from `d` are appended. -/
def mergePatch (d patch : Doc) : Doc :=
  d.map (fun p =>
    match getField patch p.1 with
    | some v => (p.1, v)
    | none => p)
  ++ patch.filter (fun p => !(d.map Prod.fst).contains p.1)

/-- Modelled from the spec: the store's `$set` update applies the
merge-patch to the matched record, but the store-generated `_id` is
immutable thereafter (spec section 3), so a patch entry named `_id` is
not applied. -/
def applyPatch (d patch : Doc) : Doc :=
  mergePatch d (patch.filter (fun p => p.1 != "_id"))

/-- Modelled from the spec: the identifier the store generates for the
`n`-th insert of its history.  The spec fixes no format, only that ids
are strings, non-empty and unique; we model them as an injective
sequence. -/
def genId (n : Nat) : String :=
  String.mk (List.replicate (n + 1) 'p')

/-- All identifiers the store has generated in its history so far. -/
def idHistory (n : Nat) : List String :=
  (List.range n).map genId

/-- Modelled from the spec: the document store collaborator.  `docs` is
the persisted collection, `nextId` counts the inserts performed so far
and drives identifier generation. -/
structure Store where
  docs : List Doc
  nextId : Nat
deriving Repr, DecidableEq

/-- The store of a fresh process: no records, no insert history. -/
def emptyStore : Store :=
  ⟨[], 0⟩

/-- Modelled from the spec: `find` with an empty query returns the full
collection in store order. -/
def Store.find (s : Store) : List Doc :=
  s.docs

/-- Modelled from the spec: `findOne` keyed by id returns the first
record whose `_id` equals `id`, if any. -/
def Store.findOne (s : Store) (id : String) : Option Doc :=
  s.docs.find? (fun d => docId d == some id)

/-- Modelled from the spec: `insert` merges a fresh store-generated
`_id` into the body, appends the record and returns it. -/
def Store.insert (s : Store) (body : Doc) : Doc × Store :=
  let d := mergePatch body [("_id", genId s.nextId)]
  (d, ⟨s.docs ++ [d], s.nextId + 1⟩)

/-- Replace the first record whose `_id` equals `id` with `d2`. -/
def replaceFirst : List Doc → String → Doc → List Doc
  | [], _, _ => []
  | d :: ds, id, d2 =>
    if docId d == some id then d2 :: ds else d :: replaceFirst ds id d2

/-- Remove the first record whose `_id` equals `id`. -/
def removeFirst : List Doc → String → List Doc
  | [], _ => []
  | d :: ds, id =>
    if docId d == some id then ds else d :: removeFirst ds id

/-- Modelled from the spec: `update` keyed by id with a `$set` patch and
the return-updated-document option: patches the first matched record and
returns it (or `none` when nothing matched). -/
def Store.update (s : Store) (id : String) (patch : Doc) : Option Doc × Store :=
  match s.findOne id with
  | none => (none, s)
  | some d =>
    let d2 := applyPatch d patch
    (some d2, ⟨replaceFirst s.docs id d2, s.nextId⟩)

/-- Modelled from the spec: `remove` keyed by id deletes the first
matched record. -/
def Store.remove (s : Store) (id : String) : Store :=
  ⟨removeFirst s.docs id, s.nextId⟩

/-- An HTTP response body as the handlers produce it. -/
inductive Body where
  | empty
  | text (msg : String)
  | doc (d : Doc)
  | docs (l : List Doc)
deriving Repr, DecidableEq

/-- An HTTP response: status code and body. -/
structure Response where
  status : Nat
  body : Body
deriving Repr, DecidableEq

/-- Handler of GET `/pets` (`pets.ts` lines 55-58): returns the whole
collection.  The store call has no try/catch guard, so an injected
fault escapes as an error. -/
def listPets (s : Store) (ffind : Option String) : Except String (Response × Store) :=
  match ffind with
  | some m => .error m
  | none => .ok (⟨200, .docs s.find⟩, s)

/-- Handler of GET `/pets/:id` (`pets.ts` lines 84-90): looks the record
up; 404 with empty body when absent, 200 with the record when present.
No try/catch guard: an injected fault escapes as an error. -/
def getPet (s : Store) (id : String) (ffind : Option String) :
    Except String (Response × Store) :=
  match ffind with
  | some m => .error m
  | none =>
    match s.findOne id with
    | none => .ok (⟨404, .empty⟩, s)
    | some pet => .ok (⟨200, .doc pet⟩, s)

/-- Handler of POST `/pets` (`pets.ts` lines 115-125): spreads the body
into a record, inserts it and answers 201 with the inserted record.  The
insert is inside try/catch: a fault becomes a 500 response carrying the
fault message. -/
def createPet (s : Store) (body : Doc) (fins : Option String) :
    Except String (Response × Store) :=
  match fins with
  | some m => .ok (⟨500, .text m⟩, s)
  | none =>
    let r := s.insert body
    .ok (⟨201, .doc r.1⟩, r.2)

/-- Handler of PUT `/pets/:id` (`pets.ts` lines 159-175): looks the
record up, answers 404 with empty body when absent, otherwise applies
the `$set` update and answers 200 with the updated record.  Both store
calls are inside try/catch: a fault becomes a 500 response carrying the
fault message. -/
def updatePet (s : Store) (id : String) (patch : Doc)
    (ffind fwrite : Option String) : Except String (Response × Store) :=
  match ffind with
  | some m => .ok (⟨500, .text m⟩, s)
  | none =>
    match s.findOne id with
    | none => .ok (⟨404, .empty⟩, s)
    | some _pet =>
      match fwrite with
      | some m => .ok (⟨500, .text m⟩, s)
      | none =>
        match s.update id patch with
        | (some u, s2) => .ok (⟨200, .doc u⟩, s2)
        | (none, s2) => .ok (⟨200, .empty⟩, s2)

/-- Handler of DELETE `/pets/:id` (`pets.ts` lines 197-210): looks the
record up, answers 404 with empty body when absent, otherwise removes it
and answers 200 with empty body.  Both store calls are inside try/catch:
a fault becomes a 500 response carrying the fault message. -/
def deletePet (s : Store) (id : String) (ffind fremove : Option String) :
    Except String (Response × Store) :=
  match ffind with
  | some m => .ok (⟨500, .text m⟩, s)
  | none =>
    match s.findOne id with
    | none => .ok (⟨404, .empty⟩, s)
    | some _pet =>
      match fremove with
      | some m => .ok (⟨500, .text m⟩, s)
      | none => .ok (⟨200, .empty⟩, s.remove id)

/-- Reachability invariant of the store: every persisted record carries
an `_id` generated by some earlier insert, and no two records share an
`_id`. -/
def Store.Wf (s : Store) : Prop :=
  (∀ d ∈ s.docs, ∃ k, k < s.nextId ∧ docId d = some (genId k)) ∧
    (s.docs.map docId).Nodup

instance (s : Store) : Decidable s.Wf := by
  unfold Store.Wf
  infer_instance

/-- One client operation of a sequential, single-threaded session. -/
inductive Op where
  | create (body : Doc)
  | update (id : String) (patch : Doc)
  | delete (id : String)
  | getOne (id : String)
  | list
deriving Repr, DecidableEq

/-- The store after one fault-free handler call. -/
def stepOp (s : Store) : Op → Store
  | .create body =>
    match createPet s body none with
    | .ok r => r.2
    | .error _ => s
  | .update id patch =>
    match updatePet s id patch none none with
    | .ok r => r.2
    | .error _ => s
  | .delete id =>
    match deletePet s id none none with
    | .ok r => r.2
    | .error _ => s
  | .getOne id =>
    match getPet s id none with
    | .ok r => r.2
    | .error _ => s
  | .list =>
    match listPets s none with
    | .ok r => r.2
    | .error _ => s

/-- The store after a whole fault-free session. -/
def runOps (ops : List Op) (s : Store) : Store :=
  ops.foldl stepOp s

/-- Number of Create operations in a session. -/
def countCreates : List Op → Nat
  | [] => 0
  | Op.create _ :: rest => countCreates rest + 1
  | Op.update _ _ :: rest => countCreates rest
  | Op.delete _ :: rest => countCreates rest
  | Op.getOne _ :: rest => countCreates rest
  | Op.list :: rest => countCreates rest

/-- Whether a Delete of `id` in state `s` answers 200 (a successful
delete, as opposed to a 404). -/
def deleteSucceeds (s : Store) (id : String) : Bool :=
  match deletePet s id none none with
  | .ok r => r.1.status == 200
  | .error _ => false

/-- Number of successful Delete operations in a session starting at `s`. -/
def countSuccDeletes : List Op → Store → Nat
  | [], _ => 0
  | Op.create b :: rest, s => countSuccDeletes rest (stepOp s (Op.create b))
  | Op.update id p :: rest, s => countSuccDeletes rest (stepOp s (Op.update id p))
  | Op.delete id :: rest, s =>
    (if deleteSucceeds s id then 1 else 0)
      + countSuccDeletes rest (stepOp s (Op.delete id))
  | Op.getOne id :: rest, s => countSuccDeletes rest (stepOp s (Op.getOne id))
  | Op.list :: rest, s => countSuccDeletes rest (stepOp s Op.list)

/-! ### Field lookup lemmas -/

theorem getField_nil (k : String) : getField [] k = none := rfl

theorem getField_cons (a b : String) (d : Doc) (k : String) :
    getField ((a, b) :: d) k = if a = k then some b else getField d k := by
  by_cases h : a = k
  · simp [getField, List.find?_cons, h]
  · simp [getField, List.find?_cons, beq_eq_false_iff_ne.mpr h, h]

theorem getField_append (l1 l2 : Doc) (k : String) :
    getField (l1 ++ l2) k = (getField l1 k).or (getField l2 k) := by
  unfold getField
  rw [List.find?_append]
  cases List.find? (fun p => p.1 == k) l1 <;> simp

theorem getField_map_patch (d patch : Doc) (k : String) :
    getField (d.map (fun p =>
        match getField patch p.1 with
        | some v => (p.1, v)
        | none => p)) k
      = match getField d k with
        | some v => some ((getField patch k).getD v)
        | none => none := by
  induction d with
  | nil => rfl
  | cons p d ih =>
    obtain ⟨a, b⟩ := p
    by_cases h : a = k
    · subst h
      cases hp : getField patch a <;>
        simp [getField_cons, hp, List.map_cons]
    · cases hp : getField patch a <;>
        simp [getField_cons, hp, h, List.map_cons, ih]

theorem getField_filter_not_mem (patch : Doc) (l : List String) (k : String)
    (h : k ∉ l) :
    getField (patch.filter (fun p => !(l.contains p.1))) k = getField patch k := by
  induction patch with
  | nil => rfl
  | cons p patch ih =>
    obtain ⟨a, b⟩ := p
    by_cases hal : a ∈ l
    · have hak : a ≠ k := fun e => h (e ▸ hal)
      simp [List.filter_cons, hal, getField_cons, hak]
      simpa using ih
    · by_cases hak : a = k
      · subst hak
        simp [List.filter_cons, hal, getField_cons]
      · simp [List.filter_cons, hal, getField_cons, hak]
        simpa using ih

theorem not_mem_keys_of_getField_none (d : Doc) (k : String)
    (h : getField d k = none) : k ∉ d.map Prod.fst := by
  induction d with
  | nil => simp
  | cons p d ih =>
    obtain ⟨a, b⟩ := p
    rw [getField_cons] at h
    by_cases hak : a = k
    · simp [hak] at h
    · rw [if_neg hak] at h
      simp [List.map_cons, List.mem_cons, Ne.symm hak, ih h]

/-- The characteristic equation of the merge-patch: a field's value after
the patch is the patch's value when the field is named there, and the old
value otherwise. -/
theorem getField_mergePatch (d patch : Doc) (k : String) :
    getField (mergePatch d patch) k = (getField patch k).or (getField d k) := by
  unfold mergePatch
  rw [getField_append, getField_map_patch]
  cases hd : getField d k
  · rw [getField_filter_not_mem patch _ k
      (not_mem_keys_of_getField_none d k hd)]
    cases getField patch k <;> simp
  · cases getField patch k <;> simp

theorem getField_filter_ne_id (patch : Doc) (k : String) (hk : k ≠ "_id") :
    getField (patch.filter (fun p => p.1 != "_id")) k = getField patch k := by
  induction patch with
  | nil => rfl
  | cons p patch ih =>
    obtain ⟨a, b⟩ := p
    by_cases ha : a = "_id"
    · subst ha
      simp [List.filter_cons, getField_cons, Ne.symm hk, ih]
    · simp [List.filter_cons, bne_iff_ne.mpr ha, getField_cons, ih]

theorem getField_filter_id_eq_none (patch : Doc) :
    getField (patch.filter (fun p => p.1 != "_id")) "_id" = none := by
  induction patch with
  | nil => rfl
  | cons p patch ih =>
    obtain ⟨a, b⟩ := p
    by_cases ha : a = "_id"
    · simp [List.filter_cons, ha, ih]
    · simp [List.filter_cons, bne_iff_ne.mpr ha, getField_cons, ha, ih]

/-- The store never lets a patch touch `_id`: the patched record keeps
the identifier of the original. -/
theorem docId_applyPatch (d patch : Doc) : docId (applyPatch d patch) = docId d := by
  unfold docId applyPatch
  rw [getField_mergePatch, getField_filter_id_eq_none]
  rfl

theorem getField_applyPatch_ne (d patch : Doc) (k : String) (hk : k ≠ "_id") :
    getField (applyPatch d patch) k = (getField patch k).or (getField d k) := by
  unfold applyPatch
  rw [getField_mergePatch, getField_filter_ne_id patch k hk]

/-! ### Generated identifiers -/

theorem genId_ne_empty (n : Nat) : genId n ≠ "" := by
  simp [genId, String.ext_iff]

theorem genId_injective {m n : Nat} (h : genId m = genId n) : m = n := by
  have h2 := congrArg (fun s => s.data.length) h
  simp [genId] at h2
  omega

theorem genId_not_mem_idHistory (n : Nat) : genId n ∉ idHistory n := by
  unfold idHistory
  intro hmem
  rcases List.mem_map.mp hmem with ⟨k, hk, he⟩
  have hk2 : k < n := List.mem_range.mp hk
  have := genId_injective he
  omega

theorem docId_insert (s : Store) (body : Doc) :
    docId (s.insert body).1 = some (genId s.nextId) := by
  unfold Store.insert docId
  rw [getField_mergePatch]
  simp [getField_cons]

theorem getField_insert_ne (s : Store) (body : Doc) (k : String) (hk : k ≠ "_id") :
    getField (s.insert body).1 k = getField body k := by
  unfold Store.insert
  rw [getField_mergePatch]
  simp [getField_cons, Ne.symm hk, getField_nil]

/-! ### findOne, replaceFirst, removeFirst -/

theorem findOne_eq_none_iff (s : Store) (id : String) :
    s.findOne id = none ↔ ∀ d ∈ s.docs, docId d ≠ some id := by
  simp [Store.findOne, List.find?_eq_none]

theorem findOne_mem_and_id {s : Store} {id : String} {d : Doc}
    (h : s.findOne id = some d) : d ∈ s.docs ∧ docId d = some id := by
  unfold Store.findOne at h
  refine ⟨List.mem_of_find?_eq_some h, ?_⟩
  have := List.find?_some h
  simpa using this

theorem length_replaceFirst (l : List Doc) (id : String) (d2 : Doc) :
    (replaceFirst l id d2).length = l.length := by
  induction l with
  | nil => rfl
  | cons d ds ih =>
    cases hd : (docId d == some id) <;> simp [replaceFirst, hd, ih]

theorem map_docId_replaceFirst (l : List Doc) (id : String) (d2 : Doc)
    (hid : docId d2 = some id) :
    (replaceFirst l id d2).map docId = l.map docId := by
  induction l with
  | nil => rfl
  | cons d ds ih =>
    cases hd : (docId d == some id)
    · simp [replaceFirst, hd, ih]
    · have hd2 : docId d = some id := by simpa using hd
      simp [replaceFirst, hd, hid, hd2]

theorem filter_ne_replaceFirst (l : List Doc) (id : String) (d2 : Doc)
    (hid : docId d2 = some id) :
    (replaceFirst l id d2).filter (fun d => !(docId d == some id))
      = l.filter (fun d => !(docId d == some id)) := by
  induction l with
  | nil => rfl
  | cons d ds ih =>
    cases hd : (docId d == some id)
    · simp [replaceFirst, hd, List.filter_cons, ih]
    · simp [replaceFirst, hd, List.filter_cons, hid]

theorem mem_replaceFirst {l : List Doc} {id : String} {d2 x : Doc}
    (h : x ∈ replaceFirst l id d2) : x ∈ l ∨ x = d2 := by
  induction l with
  | nil => simp [replaceFirst] at h
  | cons d ds ih =>
    by_cases hd : (docId d == some id) = true
    · rw [replaceFirst, if_pos hd] at h
      rcases List.mem_cons.mp h with h | h
      · exact Or.inr h
      · exact Or.inl (List.mem_cons_of_mem _ h)
    · rw [replaceFirst, if_neg hd] at h
      rcases List.mem_cons.mp h with h | h
      · exact Or.inl (h ▸ List.mem_cons_self _ _)
      · rcases ih h with h | h
        · exact Or.inl (List.mem_cons_of_mem _ h)
        · exact Or.inr h

theorem filter_ne_removeFirst (l : List Doc) (id : String) :
    (removeFirst l id).filter (fun d => !(docId d == some id))
      = l.filter (fun d => !(docId d == some id)) := by
  induction l with
  | nil => rfl
  | cons d ds ih =>
    cases hd : (docId d == some id)
    · simp [removeFirst, hd, List.filter_cons, ih]
    · simp [removeFirst, hd, List.filter_cons]

theorem removeFirst_sublist (l : List Doc) (id : String) :
    (removeFirst l id).Sublist l := by
  induction l with
  | nil => simp [removeFirst]
  | cons d ds ih =>
    cases hd : (docId d == some id)
    · rw [removeFirst, if_neg (by simp [hd])]
      exact ih.cons₂ d
    · rw [removeFirst, if_pos (by simp [hd])]
      exact List.sublist_cons_self d ds

theorem length_removeFirst_of_found {l : List Doc} {id : String}
    (h : (l.find? (fun d => docId d == some id)).isSome) :
    (removeFirst l id).length + 1 = l.length := by
  induction l with
  | nil => simp [List.find?] at h
  | cons d ds ih =>
    cases hd : (docId d == some id)
    · simp only [List.find?_cons, hd] at h
      simp [removeFirst, hd, ih h]
    · simp [removeFirst, hd]

theorem find?_removeFirst_eq_none {l : List Doc} {id : String}
    (hnd : (l.map docId).Nodup) :
    (removeFirst l id).find? (fun d => docId d == some id) = none := by
  induction l with
  | nil => rfl
  | cons d ds ih =>
    have hnd2 : (ds.map docId).Nodup := (List.nodup_cons.mp (by simpa using hnd)).2
    cases hd : (docId d == some id)
    · rw [removeFirst, if_neg (by simp [hd])]
      simp only [List.find?_cons, hd]
      exact ih hnd2
    · have hd2 : docId d = some id := by simpa using hd
      have hnotmem : docId d ∉ ds.map docId :=
        (List.nodup_cons.mp (by simpa using hnd)).1
      rw [removeFirst, if_pos (by simp [hd])]
      rw [List.find?_eq_none]
      intro x hx
      simp only [beq_iff_eq]
      intro he
      exact hnotmem (List.mem_map.mpr ⟨x, hx, he.trans hd2.symm⟩)

/-! ### The wellformedness invariant is established and preserved -/

theorem insert_docs (s : Store) (body : Doc) :
    (s.insert body).2.docs = s.docs ++ [(s.insert body).1] := rfl

theorem insert_nextId (s : Store) (body : Doc) :
    (s.insert body).2.nextId = s.nextId + 1 := rfl

theorem wf_emptyStore : emptyStore.Wf := by
  constructor <;> simp [emptyStore]

theorem wf_insert {s : Store} (hwf : s.Wf) (body : Doc) : (s.insert body).2.Wf := by
  obtain ⟨hids, hnd⟩ := hwf
  constructor
  · intro d hd
    rw [insert_docs] at hd
    rw [insert_nextId]
    rcases List.mem_append.mp hd with h | h
    · rcases hids d h with ⟨k, hk, hke⟩
      exact ⟨k, Nat.lt_succ_of_lt hk, hke⟩
    · have he : d = (s.insert body).1 := by simpa using h
      exact ⟨s.nextId, Nat.lt_succ_self _, by rw [he, docId_insert]⟩
  · rw [insert_docs, List.map_append, List.nodup_append]
    refine ⟨hnd, by simp, ?_⟩
    intro a ha hb
    rcases List.mem_map.mp ha with ⟨d, hdmem, rfl⟩
    rcases hids d hdmem with ⟨k, hk, hke⟩
    have hb2 : docId d = docId (s.insert body).1 := by simpa using hb
    rw [hke, docId_insert] at hb2
    have := genId_injective (Option.some.inj hb2)
    omega

theorem wf_update {s : Store} (hwf : s.Wf) (id : String) (patch : Doc) :
    (s.update id patch).2.Wf := by
  obtain ⟨hids, hnd⟩ := hwf
  unfold Store.update
  cases hf : s.findOne id with
  | none => exact ⟨hids, hnd⟩
  | some d =>
    obtain ⟨hdm, hdid⟩ := findOne_mem_and_id hf
    have hid2 : docId (applyPatch d patch) = some id := by
      rw [docId_applyPatch, hdid]
    constructor
    · intro x hx
      rcases mem_replaceFirst hx with h | h
      · exact hids x h
      · rcases hids d hdm with ⟨k, hk, hke⟩
        exact ⟨k, hk, by rw [h, docId_applyPatch, hke]⟩
    · show (List.map docId (replaceFirst s.docs id (applyPatch d patch))).Nodup
      rw [map_docId_replaceFirst _ _ _ hid2]
      exact hnd

theorem wf_remove {s : Store} (hwf : s.Wf) (id : String) : (s.remove id).Wf := by
  obtain ⟨hids, hnd⟩ := hwf
  constructor
  · intro d hd
    exact hids d ((removeFirst_sublist s.docs id).subset hd)
  · exact List.Nodup.sublist ((removeFirst_sublist s.docs id).map docId) hnd

/-! ### Handler branch lemmas used for the 404 body analysis -/

theorem getPet_404_body {s : Store} {id : String} {f1 : Option String}
    {r : Response} {s2 : Store} (h : getPet s id f1 = .ok (r, s2))
    (h404 : r.status = 404) : r.body = .empty := by
  cases f1 with
  | some m =>
    simp only [getPet] at h
    exact Except.noConfusion h
  | none =>
    cases hf : s.findOne id with
    | none =>
      simp only [getPet, hf] at h
      have hp := Except.ok.inj h
      rw [Prod.mk.injEq] at hp
      rw [← hp.1]
    | some pet =>
      simp only [getPet, hf] at h
      have hp := Except.ok.inj h
      rw [Prod.mk.injEq] at hp
      rw [← hp.1] at h404
      simp at h404

theorem updatePet_404_body {s : Store} {id : String} {patch : Doc}
    {f1 f2 : Option String} {r : Response} {s2 : Store}
    (h : updatePet s id patch f1 f2 = .ok (r, s2))
    (h404 : r.status = 404) : r.body = .empty := by
  cases f1 with
  | some m =>
    simp only [updatePet] at h
    have hp := Except.ok.inj h
    rw [Prod.mk.injEq] at hp
    rw [← hp.1] at h404
    simp at h404
  | none =>
    cases hf : s.findOne id with
    | none =>
      simp only [updatePet, hf] at h
      have hp := Except.ok.inj h
      rw [Prod.mk.injEq] at hp
      rw [← hp.1]
    | some pet =>
      cases f2 with
      | some m =>
        simp only [updatePet, hf] at h
        have hp := Except.ok.inj h
        rw [Prod.mk.injEq] at hp
        rw [← hp.1] at h404
        simp at h404
      | none =>
        simp only [updatePet, hf, Store.update] at h
        have hp := Except.ok.inj h
        rw [Prod.mk.injEq] at hp
        rw [← hp.1] at h404
        simp at h404

theorem deletePet_404_body {s : Store} {id : String}
    {f1 f2 : Option String} {r : Response} {s2 : Store}
    (h : deletePet s id f1 f2 = .ok (r, s2))
    (h404 : r.status = 404) : r.body = .empty := by
  cases f1 with
  | some m =>
    simp only [deletePet] at h
    have hp := Except.ok.inj h
    rw [Prod.mk.injEq] at hp
    rw [← hp.1] at h404
    simp at h404
  | none =>
    cases hf : s.findOne id with
    | none =>
      simp only [deletePet, hf] at h
      have hp := Except.ok.inj h
      rw [Prod.mk.injEq] at hp
      rw [← hp.1]
    | some pet =>
      cases f2 with
      | some m =>
        simp only [deletePet, hf] at h
        have hp := Except.ok.inj h
        rw [Prod.mk.injEq] at hp
        rw [← hp.1] at h404
        simp at h404
      | none =>
        simp only [deletePet, hf] at h
        have hp := Except.ok.inj h
        rw [Prod.mk.injEq] at hp
        rw [← hp.1]

/-! ### Sequential, fault-free operation sequences -/

theorem length_stepOp_create (s : Store) (body : Doc) :
    (stepOp s (.create body)).docs.length = s.docs.length + 1 := by
  show (s.insert body).2.docs.length = s.docs.length + 1
  rw [insert_docs]
  simp

theorem length_stepOp_update (s : Store) (id : String) (patch : Doc) :
    (stepOp s (.update id patch)).docs.length = s.docs.length := by
  cases hf : s.findOne id with
  | none => simp [stepOp, updatePet, hf]
  | some d => simp [stepOp, updatePet, hf, Store.update, length_replaceFirst]

theorem deleteSucceeds_iff (s : Store) (id : String) :
    deleteSucceeds s id = true ↔ (s.findOne id).isSome := by
  unfold deleteSucceeds deletePet
  cases hf : s.findOne id <;> simp

theorem length_stepOp_delete (s : Store) (id : String) :
    (stepOp s (.delete id)).docs.length + (if deleteSucceeds s id then 1 else 0)
      = s.docs.length := by
  cases hf : s.findOne id with
  | none =>
    have hds : deleteSucceeds s id = false := by
      simp [deleteSucceeds, deletePet, hf]
    simp [stepOp, deletePet, hf, hds]
  | some d =>
    have hds : deleteSucceeds s id = true := by
      simp [deleteSucceeds, deletePet, hf]
    have hfound : (s.docs.find? (fun d => docId d == some id)).isSome := by
      show (s.findOne id).isSome
      rw [hf]
      rfl
    simp [stepOp, deletePet, hf, hds, Store.remove]
    exact length_removeFirst_of_found hfound

theorem stepOp_getOne (s : Store) (id : String) : stepOp s (.getOne id) = s := by
  cases hf : s.findOne id <;> simp [stepOp, getPet, hf]

theorem stepOp_list (s : Store) : stepOp s .list = s := rfl

/-- The length accounting of a fault-free session: records present plus
successful deletes so far equals records at the start plus creates. -/
theorem run_length (ops : List Op) : ∀ s : Store,
    (runOps ops s).docs.length + countSuccDeletes ops s
      = s.docs.length + countCreates ops := by
  induction ops with
  | nil =>
    intro s
    simp [runOps, countSuccDeletes, countCreates]
  | cons op rest ih =>
    intro s
    have hrun : runOps (op :: rest) s = runOps rest (stepOp s op) := rfl
    cases op with
    | create body =>
      have h1 := ih (stepOp s (Op.create body))
      have h2 := length_stepOp_create s body
      simp only [hrun, countSuccDeletes, countCreates]
      omega
    | update id patch =>
      have h1 := ih (stepOp s (Op.update id patch))
      have h2 := length_stepOp_update s id patch
      simp only [hrun, countSuccDeletes, countCreates]
      omega
    | delete id =>
      have h1 := ih (stepOp s (Op.delete id))
      have h2 := length_stepOp_delete s id
      simp only [hrun, countSuccDeletes, countCreates]
      omega
    | getOne id =>
      have h1 := ih (stepOp s (Op.getOne id))
      simp only [hrun, countSuccDeletes, countCreates, stepOp_getOne] at h1 ⊢
      omega
    | list =>
      have h1 := ih (stepOp s Op.list)
      simp only [hrun, countSuccDeletes, countCreates, stepOp_list] at h1 ⊢
      omega

/-- Wellformedness is preserved by every fault-free handler call, so it
does hold in every state a session can reach from the fresh store. -/
theorem wf_stepOp {s : Store} (hwf : s.Wf) (op : Op) : (stepOp s op).Wf := by
  cases op with
  | create body => exact wf_insert hwf body
  | update id patch =>
    cases hf : s.findOne id with
    | none => simpa [stepOp, updatePet, hf] using hwf
    | some d =>
      have := wf_update hwf id patch
      simp only [Store.update, hf] at this
      simpa [stepOp, updatePet, hf, Store.update] using this
  | delete id =>
    cases hf : s.findOne id with
    | none => simpa [stepOp, deletePet, hf] using hwf
    | some d => simpa [stepOp, deletePet, hf] using wf_remove hwf id
  | getOne id => simpa [stepOp_getOne] using hwf
  | list => exact hwf

theorem wf_runOps (ops : List Op) : ∀ s : Store, s.Wf → (runOps ops s).Wf := by
  induction ops with
  | nil => exact fun s h => h
  | cons op rest ih => exact fun s h => ih (stepOp s op) (wf_stepOp h op)

/-! ### The claims -/

/-- Claim C1, counterexample: the field map `[("_id", "q")]` names the
field `_id` with value `"q"`, the record with id `"p"` exists, Update
answers 200 with the updated record, yet the named field `_id` is not
overwritten in it — so Update does not overwrite exactly the named
fields, contradicting the claim as stated. -/
theorem update_merge_patch_counterexample :
    getField [("_id", "q")] "_id" = some "q" ∧
    updatePet ⟨[[("_id", "p"), ("type", "dog"), ("name", "Rex")]], 1⟩ "p"
        [("_id", "q")] none none
      = .ok (⟨200, .doc [("_id", "p"), ("type", "dog"), ("name", "Rex")]⟩,
             ⟨[[("_id", "p"), ("type", "dog"), ("name", "Rex")]], 1⟩) ∧
    getField [("_id", "p"), ("type", "dog"), ("name", "Rex")] "_id" ≠ some "q" :=
  ⟨rfl, by rfl, by decide⟩

/-- Claim C1, amended: for every existing record and every field map,
Update applies the map as a merge-patch except on the store-controlled
`_id`: every field not named in the map keeps its previous value, every
named field other than `_id` is overwritten with the map's value, `_id`
keeps its previous value, and the response is 200 with the updated
record (which also replaces the matched record in the store). -/
theorem update_merge_patch_amended (s : Store) (id : String) (patch : Doc)
    (pet : Doc) (hfound : s.findOne id = some pet) (k : String) :
    updatePet s id patch none none
      = .ok (⟨200, .doc (applyPatch pet patch)⟩,
             ⟨replaceFirst s.docs id (applyPatch pet patch), s.nextId⟩) ∧
    getField (applyPatch pet patch) k
      = if k = "_id" then docId pet
        else (getField patch k).or (getField pet k) := by
  constructor
  · simp [updatePet, hfound, Store.update]
  · by_cases hk : k = "_id"
    · rw [if_pos hk, hk]
      exact docId_applyPatch pet patch
    · rw [if_neg hk]
      exact getField_applyPatch_ne pet patch k hk

/-- Claim C1, witness for the amended theorem at a concrete store,
record, patch and field. -/
theorem update_merge_patch_amended_witness :
    updatePet ⟨[[("_id", "p"), ("type", "dog"), ("name", "Rex")]], 1⟩ "p"
        [("name", "Xander")] none none
      = .ok (⟨200, .doc (applyPatch [("_id", "p"), ("type", "dog"), ("name", "Rex")]
                 [("name", "Xander")])⟩,
             ⟨replaceFirst [[("_id", "p"), ("type", "dog"), ("name", "Rex")]] "p"
                 (applyPatch [("_id", "p"), ("type", "dog"), ("name", "Rex")]
                   [("name", "Xander")]), 1⟩) ∧
    getField (applyPatch [("_id", "p"), ("type", "dog"), ("name", "Rex")]
        [("name", "Xander")]) "name"
      = if "name" = "_id" then docId [("_id", "p"), ("type", "dog"), ("name", "Rex")]
        else (getField [("name", "Xander")] "name").or
          (getField [("_id", "p"), ("type", "dog"), ("name", "Rex")] "name") :=
  update_merge_patch_amended ⟨[[("_id", "p"), ("type", "dog"), ("name", "Rex")]], 1⟩
    "p" [("name", "Xander")] [("_id", "p"), ("type", "dog"), ("name", "Rex")]
    (by rfl) "name"

/-- Claim C2: for every wellformed store and every request body, Create
answers 201 with the inserted record, and Get-by-id on the id of that
record answers 200 with a record equal to the one Create returned. -/
theorem create_then_get_same_record (s : Store) (body : Doc) (hwf : s.Wf) :
    createPet s body none
      = .ok (⟨201, .doc (s.insert body).1⟩, (s.insert body).2) ∧
    docId (s.insert body).1 = some (genId s.nextId) ∧
    getPet (s.insert body).2 (genId s.nextId) none
      = .ok (⟨200, .doc (s.insert body).1⟩, (s.insert body).2) := by
  refine ⟨rfl, docId_insert s body, ?_⟩
  have hfind : (s.insert body).2.findOne (genId s.nextId) = some (s.insert body).1 := by
    unfold Store.findOne
    rw [insert_docs, List.find?_append]
    have h1 : s.docs.find? (fun d => docId d == some (genId s.nextId)) = none := by
      rw [List.find?_eq_none]
      intro d hd hbeq
      rcases hwf.1 d hd with ⟨k, hk, hke⟩
      have he : genId k = genId s.nextId := by
        have h2 : docId d = some (genId s.nextId) := by simpa using hbeq
        rw [hke] at h2
        exact Option.some.inj h2
      have := genId_injective he
      omega
    rw [h1]
    simp [List.find?_cons, docId_insert]
  simp [getPet, hfind]

/-- Claim C2, witness at the fresh store and a concrete body. -/
theorem create_then_get_same_record_witness :
    emptyStore.Wf ∧
    (createPet emptyStore [("type", "dog"), ("name", "Alexander")] none
      = .ok (⟨201, .doc (emptyStore.insert [("type", "dog"), ("name", "Alexander")]).1⟩,
             (emptyStore.insert [("type", "dog"), ("name", "Alexander")]).2) ∧
     docId (emptyStore.insert [("type", "dog"), ("name", "Alexander")]).1
        = some (genId emptyStore.nextId) ∧
     getPet (emptyStore.insert [("type", "dog"), ("name", "Alexander")]).2
        (genId emptyStore.nextId) none
      = .ok (⟨200, .doc (emptyStore.insert [("type", "dog"), ("name", "Alexander")]).1⟩,
             (emptyStore.insert [("type", "dog"), ("name", "Alexander")]).2)) :=
  ⟨by decide,
   create_then_get_same_record emptyStore [("type", "dog"), ("name", "Alexander")]
     (by decide)⟩

/-- Claim C3: in every wellformed store, after a Delete of `id` answers
(whatever its outcome), Get-by-id on the same `id` answers 404 with
empty body. -/
theorem delete_then_get_not_found (s : Store) (id : String) (r : Response)
    (s2 : Store) (hwf : s.Wf)
    (h : deletePet s id none none = .ok (r, s2)) :
    getPet s2 id none = .ok (⟨404, .empty⟩, s2) := by
  cases hf : s.findOne id with
  | none =>
    simp only [deletePet, hf] at h
    have hp := Except.ok.inj h
    rw [Prod.mk.injEq] at hp
    have h2 : s2 = s := hp.2.symm
    subst h2
    simp [getPet, hf]
  | some d =>
    simp only [deletePet, hf] at h
    have hp := Except.ok.inj h
    rw [Prod.mk.injEq] at hp
    have h2 : s2 = s.remove id := hp.2.symm
    subst h2
    have hnone : (s.remove id).findOne id = none := by
      show (removeFirst s.docs id).find? (fun d => docId d == some id) = none
      exact find?_removeFirst_eq_none hwf.2
    simp [getPet, hnone]

/-- Claim C3, witness: deleting the only record and then getting it. -/
theorem delete_then_get_not_found_witness :
    (⟨[[("_id", "p"), ("type", "dog")]], 1⟩ : Store).Wf ∧
    deletePet ⟨[[("_id", "p"), ("type", "dog")]], 1⟩ "p" none none
      = .ok (⟨200, .empty⟩, ⟨[], 1⟩) ∧
    getPet (⟨[], 1⟩ : Store) "p" none = .ok (⟨404, .empty⟩, ⟨[], 1⟩) :=
  ⟨by decide, by rfl,
   delete_then_get_not_found ⟨[[("_id", "p"), ("type", "dog")]], 1⟩ "p"
     ⟨200, .empty⟩ ⟨[], 1⟩ (by decide) (by rfl)⟩

/-- Claim C4: on an id no record of the store carries, Get-by-id, Update
and Delete all answer 404 with empty body — never a 500 — as long as the
store read itself does not fault (the write-step fault is arbitrary,
since no write is reached). -/
theorem never_created_not_found (s : Store) (id : String) (patch : Doc)
    (fw frem : Option String)
    (h : ∀ d ∈ s.docs, docId d ≠ some id) :
    getPet s id none = .ok (⟨404, .empty⟩, s) ∧
    updatePet s id patch none fw = .ok (⟨404, .empty⟩, s) ∧
    deletePet s id none frem = .ok (⟨404, .empty⟩, s) := by
  have hf : s.findOne id = none := (findOne_eq_none_iff s id).mpr h
  exact ⟨by simp [getPet, hf], by simp [updatePet, hf], by simp [deletePet, hf]⟩

/-- Claim C4, witness on an id absent from a concrete store, with a
fault armed on the (unreached) write step. -/
theorem never_created_not_found_witness :
    getPet ⟨[[("_id", "p"), ("type", "dog")]], 1⟩ "zzz" none
      = .ok (⟨404, .empty⟩, ⟨[[("_id", "p"), ("type", "dog")]], 1⟩) ∧
    updatePet ⟨[[("_id", "p"), ("type", "dog")]], 1⟩ "zzz" [("name", "x")]
        none (some "boom")
      = .ok (⟨404, .empty⟩, ⟨[[("_id", "p"), ("type", "dog")]], 1⟩) ∧
    deletePet ⟨[[("_id", "p"), ("type", "dog")]], 1⟩ "zzz" none (some "boom")
      = .ok (⟨404, .empty⟩, ⟨[[("_id", "p"), ("type", "dog")]], 1⟩) :=
  never_created_not_found ⟨[[("_id", "p"), ("type", "dog")]], 1⟩ "zzz"
    [("name", "x")] (some "boom") (some "boom") (by decide)

/-- Claim C5: for every sequential fault-free session from the fresh
store, List answers 200 with the full record collection, and the number
of records equals the number of Creates minus the number of successful
Deletes performed so far. -/
theorem list_count_creates_minus_deletes (ops : List Op) :
    listPets (runOps ops emptyStore) none
      = .ok (⟨200, .docs (runOps ops emptyStore).docs⟩, runOps ops emptyStore) ∧
    (runOps ops emptyStore).docs.length + countSuccDeletes ops emptyStore
      = countCreates ops ∧
    (runOps ops emptyStore).docs.length
      = countCreates ops - countSuccDeletes ops emptyStore := by
  have h := run_length ops emptyStore
  have h0 : emptyStore.docs.length = 0 := rfl
  exact ⟨rfl, by omega, by omega⟩

/-- Claim C6: the id of the record Create inserts is generated by the
store at insert time, is non-empty and is not among the ids of the
store's earlier insert history; and Update (the only record-mutating
operation) preserves the id of every record in the store. -/
theorem create_id_generated_unique_immutable (s : Store) (body : Doc)
    (s1 : Store) (id1 : String) (patch : Doc) (r : Response) (s3 : Store)
    (hupd : updatePet s1 id1 patch none none = .ok (r, s3)) :
    createPet s body none
      = .ok (⟨201, .doc (s.insert body).1⟩, (s.insert body).2) ∧
    docId (s.insert body).1 = some (genId s.nextId) ∧
    genId s.nextId ≠ "" ∧
    genId s.nextId ∉ idHistory s.nextId ∧
    (s.insert body).2.nextId = s.nextId + 1 ∧
    s3.docs.map docId = s1.docs.map docId := by
  refine ⟨rfl, docId_insert s body, genId_ne_empty _, genId_not_mem_idHistory _,
    insert_nextId s body, ?_⟩
  cases hf : s1.findOne id1 with
  | none =>
    simp only [updatePet, hf] at hupd
    have hp := Except.ok.inj hupd
    rw [Prod.mk.injEq] at hp
    rw [← hp.2]
  | some d =>
    obtain ⟨hdm, hdid⟩ := findOne_mem_and_id hf
    simp only [updatePet, hf, Store.update] at hupd
    have hp := Except.ok.inj hupd
    rw [Prod.mk.injEq] at hp
    rw [← hp.2]
    exact map_docId_replaceFirst s1.docs id1 (applyPatch d patch)
      (by rw [docId_applyPatch, hdid])

/-- Claim C6, witness at a concrete create and a concrete successful
update. -/
theorem create_id_generated_unique_immutable_witness :
    createPet emptyStore [("type", "dog")] none
      = .ok (⟨201, .doc (emptyStore.insert [("type", "dog")]).1⟩,
             (emptyStore.insert [("type", "dog")]).2) ∧
    docId (emptyStore.insert [("type", "dog")]).1 = some (genId emptyStore.nextId) ∧
    genId emptyStore.nextId ≠ "" ∧
    genId emptyStore.nextId ∉ idHistory emptyStore.nextId ∧
    (emptyStore.insert [("type", "dog")]).2.nextId = emptyStore.nextId + 1 ∧
    (⟨[[("_id", "p"), ("name", "X")]], 1⟩ : Store).docs.map docId
      = (⟨[[("_id", "p"), ("name", "Rex")]], 1⟩ : Store).docs.map docId :=
  create_id_generated_unique_immutable emptyStore [("type", "dog")]
    ⟨[[("_id", "p"), ("name", "Rex")]], 1⟩ "p" [("name", "X")]
    ⟨200, .doc [("_id", "p"), ("name", "X")]⟩ ⟨[[("_id", "p"), ("name", "X")]], 1⟩
    (by rfl)

/-- Claim C7: Create validates nothing: every body — the empty one
included — is inserted as-is (every field other than the assigned `_id`
keeps the body's value) and answered with 201 and the assigned id. -/
theorem create_no_validation (s : Store) (body : Doc) (k : String)
    (hk : k ≠ "_id") :
    createPet s body none
      = .ok (⟨201, .doc (s.insert body).1⟩, (s.insert body).2) ∧
    (s.insert body).2.docs = s.docs ++ [(s.insert body).1] ∧
    docId (s.insert body).1 = some (genId s.nextId) ∧
    getField (s.insert body).1 k = getField body k :=
  ⟨rfl, insert_docs s body, docId_insert s body, getField_insert_ne s body k hk⟩

/-- Claim C7, witness: a body missing both documented required fields
is accepted and inserted. -/
theorem create_no_validation_witness :
    "name" ≠ "_id" ∧
    (createPet emptyStore [] none
      = .ok (⟨201, .doc (emptyStore.insert []).1⟩, (emptyStore.insert []).2) ∧
    (emptyStore.insert []).2.docs = emptyStore.docs ++ [(emptyStore.insert []).1] ∧
    docId (emptyStore.insert []).1 = some (genId emptyStore.nextId) ∧
    getField (emptyStore.insert []).1 "name" = getField [] "name") :=
  ⟨by decide, create_no_validation emptyStore [] "name" (by decide)⟩

/-- Claim C8: a store fault during the write/remove step of Create,
Update or Delete is caught and answered as 500 with the fault's message
verbatim; a store fault on List or Get-by-id is unguarded and escapes
the handler. -/
theorem store_fault_surfaced (s : Store) (body patch : Doc) (id m : String)
    (pet : Doc) (hfound : s.findOne id = some pet) :
    createPet s body (some m) = .ok (⟨500, .text m⟩, s) ∧
    updatePet s id patch none (some m) = .ok (⟨500, .text m⟩, s) ∧
    deletePet s id none (some m) = .ok (⟨500, .text m⟩, s) ∧
    listPets s (some m) = .error m ∧
    getPet s id (some m) = .error m := by
  refine ⟨rfl, ?_, ?_, rfl, rfl⟩
  · simp [updatePet, hfound]
  · simp [deletePet, hfound]

/-- Claim C8, witness with a concrete fault message on a concrete
store. -/
theorem store_fault_surfaced_witness :
    createPet ⟨[[("_id", "p"), ("type", "dog")]], 1⟩ [("type", "cat")]
        (some "disk full")
      = .ok (⟨500, .text "disk full"⟩, ⟨[[("_id", "p"), ("type", "dog")]], 1⟩) ∧
    updatePet ⟨[[("_id", "p"), ("type", "dog")]], 1⟩ "p" [("name", "x")]
        none (some "disk full")
      = .ok (⟨500, .text "disk full"⟩, ⟨[[("_id", "p"), ("type", "dog")]], 1⟩) ∧
    deletePet ⟨[[("_id", "p"), ("type", "dog")]], 1⟩ "p" none (some "disk full")
      = .ok (⟨500, .text "disk full"⟩, ⟨[[("_id", "p"), ("type", "dog")]], 1⟩) ∧
    listPets ⟨[[("_id", "p"), ("type", "dog")]], 1⟩ (some "disk full")
      = .error "disk full" ∧
    getPet ⟨[[("_id", "p"), ("type", "dog")]], 1⟩ "p" (some "disk full")
      = .error "disk full" :=
  store_fault_surfaced ⟨[[("_id", "p"), ("type", "dog")]], 1⟩ [("type", "cat")]
    [("name", "x")] "p" "disk full" [("_id", "p"), ("type", "dog")] (by rfl)

/-- Claim C9: every NotFound (404) outcome of Get-by-id, Update or
Delete carries an empty body — no diagnostic text. -/
theorem not_found_empty_body (s : Store) (id : String) (patch : Doc)
    (f1 f2 : Option String) (r : Response) (s2 : Store)
    (h : getPet s id f1 = .ok (r, s2)
        ∨ updatePet s id patch f1 f2 = .ok (r, s2)
        ∨ deletePet s id f1 f2 = .ok (r, s2))
    (h404 : r.status = 404) :
    r.body = .empty := by
  rcases h with h | h | h
  · exact getPet_404_body h h404
  · exact updatePet_404_body h h404
  · exact deletePet_404_body h h404

/-- Claim C9, witness at a concrete 404 outcome of Get-by-id. -/
theorem not_found_empty_body_witness :
    getPet emptyStore "zzz" none = .ok (⟨404, .empty⟩, emptyStore) ∧
    (Response.mk 404 .empty).status = 404 ∧
    (Response.mk 404 .empty).body = .empty :=
  ⟨by rfl, rfl,
   not_found_empty_body emptyStore "zzz" [] none none ⟨404, .empty⟩ emptyStore
     (Or.inl (by rfl)) rfl⟩

/-- Claim C10: fault-free Update and Delete leave every record whose id
differs from the given id unchanged (the sub-collection of other records
is preserved literally), and Update never adds a record: the ids of the
store after it are exactly the ids before it. -/
theorem update_delete_frame (s : Store) (id : String) (patch : Doc)
    (ru rd : Response) (su sd : Store)
    (hu : updatePet s id patch none none = .ok (ru, su))
    (hd : deletePet s id none none = .ok (rd, sd)) :
    su.docs.filter (fun d => !(docId d == some id))
        = s.docs.filter (fun d => !(docId d == some id)) ∧
    sd.docs.filter (fun d => !(docId d == some id))
        = s.docs.filter (fun d => !(docId d == some id)) ∧
    su.docs.map docId = s.docs.map docId := by
  cases hf : s.findOne id with
  | none =>
    simp only [updatePet, hf] at hu
    simp only [deletePet, hf] at hd
    have hpu := Except.ok.inj hu
    rw [Prod.mk.injEq] at hpu
    have hpd := Except.ok.inj hd
    rw [Prod.mk.injEq] at hpd
    rw [← hpu.2, ← hpd.2]
    exact ⟨rfl, rfl, rfl⟩
  | some d =>
    obtain ⟨hdm, hdid⟩ := findOne_mem_and_id hf
    have hid2 : docId (applyPatch d patch) = some id := by
      rw [docId_applyPatch, hdid]
    simp only [updatePet, hf, Store.update] at hu
    simp only [deletePet, hf] at hd
    have hpu := Except.ok.inj hu
    rw [Prod.mk.injEq] at hpu
    have hpd := Except.ok.inj hd
    rw [Prod.mk.injEq] at hpd
    rw [← hpu.2, ← hpd.2]
    refine ⟨?_, ?_, ?_⟩
    · exact filter_ne_replaceFirst s.docs id (applyPatch d patch) hid2
    · show (removeFirst s.docs id).filter _ = _
      exact filter_ne_removeFirst s.docs id
    · exact map_docId_replaceFirst s.docs id (applyPatch d patch) hid2

/-- Claim C10, witness on a two-record store: the record with the other
id is untouched by both Update and Delete, and Update preserves the id
multiset. -/
theorem update_delete_frame_witness :
    (⟨[[("_id", "p"), ("name", "C")], [("_id", "pp"), ("name", "B")]], 2⟩
        : Store).docs.filter (fun d => !(docId d == some "p"))
      = (⟨[[("_id", "p"), ("name", "A")], [("_id", "pp"), ("name", "B")]], 2⟩
        : Store).docs.filter (fun d => !(docId d == some "p")) ∧
    (⟨[[("_id", "pp"), ("name", "B")]], 2⟩
        : Store).docs.filter (fun d => !(docId d == some "p"))
      = (⟨[[("_id", "p"), ("name", "A")], [("_id", "pp"), ("name", "B")]], 2⟩
        : Store).docs.filter (fun d => !(docId d == some "p")) ∧
    (⟨[[("_id", "p"), ("name", "C")], [("_id", "pp"), ("name", "B")]], 2⟩
        : Store).docs.map docId
      = (⟨[[("_id", "p"), ("name", "A")], [("_id", "pp"), ("name", "B")]], 2⟩
        : Store).docs.map docId :=
  update_delete_frame
    ⟨[[("_id", "p"), ("name", "A")], [("_id", "pp"), ("name", "B")]], 2⟩
    "p" [("name", "C")]
    ⟨200, .doc [("_id", "p"), ("name", "C")]⟩ ⟨200, .empty⟩
    ⟨[[("_id", "p"), ("name", "C")], [("_id", "pp"), ("name", "B")]], 2⟩
    ⟨[[("_id", "pp"), ("name", "B")]], 2⟩
    (by rfl) (by rfl)
